import Mathlib

/-!
# Verification of the result-ranking logic of `KnowledgeBase.search`

This file gives a shallow embedding of the result post-processing pipeline of
the repository's two `KnowledgeBase.search` implementations:

* `KnowledgeBase.search`   — `src/knowledge_base.py`, lines 136–220
  (query-intent keyword branch for "example"/"work" queries, similarity
  boosting, threshold 35, hash-based deduplication plus a >10-word filter,
  truncation to `k`);
* `Ragstuff.search`        — `src/ragstuff/knowledge_base.py`, lines 139–179
  ("who is" sentence extraction, threshold 30, formatted percentage strings,
  no deduplication).

Modelling conventions:

* Python `str` is modelled by `String`; the repository's data is ASCII, and
  `str.lower`, `str.strip`, `str.split`, `str.replace`, `str.startswith`,
  `"x" in s` and `sep.join` are re-implemented below over `List Char` with
  Python's exact semantics on ASCII input.
* Python floats are modelled by `ℚ`.  Every numeric literal appearing in the
  pipeline (distances such as 0.2, the constants 100, 35, 30, 15, 10) is
  exactly representable as a double and the arithmetic performed on them in
  the concrete scenarios below is exact in IEEE double precision, so the
  rational model agrees with the float computation there.
* The vector-store call `similarity_search_with_score` is external; its
  outcome is an *input* to the embedded ranker (for the main variant an
  `Except`, because the surrounding `try`/`except` turns any upstream
  exception into an empty result list).  The query expansion at lines
  143–148 of `src/knowledge_base.py` only alters the argument of that
  external call and is therefore not part of the embedded pipeline.
* Python's `list.sort(key=…, reverse=True)` is a stable descending sort; it
  is modelled by `List.insertionSort` under the lexicographic relation
  "similarity descending, then original candidate position ascending", which
  is extensionally the unique output a stable descending sort can produce.
* The `hash(content)`-based seen-set of the main variant is modelled by
  string equality (equal strings always hash equally, so true duplicates are
  always dropped).
-/

/-! ## Python string primitives (ASCII) -/

/-- The ASCII whitespace characters recognised by Python's `str.strip` /
`str.split()`. -/
def isWsChar (c : Char) : Bool :=
  c = ' ' ∨ c = '\t' ∨ c = '\n' ∨ c = '\r' ∨ c = '\x0b' ∨ c = '\x0c'

/-- ASCII lower-casing of one character, as Python's `str.lower` acts on
ASCII text. -/
def charLower (c : Char) : Char :=
  if 'A' ≤ c ∧ c ≤ 'Z' then Char.ofNat (c.toNat + 32) else c

/-- Python `s.lower()` on ASCII text. -/
def lowerS (s : String) : String := String.mk (s.toList.map charLower)

/-- Python `s.strip()` on ASCII text: drop leading and trailing whitespace. -/
def trimS (s : String) : String :=
  String.mk (((s.toList.dropWhile isWsChar).reverse.dropWhile isWsChar).reverse)

/-- Python `needle in hay` on strings: substring containment. -/
def containsStr (needle hay : String) : Bool :=
  hay.toList.tails.any (fun t => needle.toList.isPrefixOf t)

/-- Python `s.startswith(pre)`. -/
def startsWithS (s pre : String) : Bool := pre.toList.isPrefixOf s.toList

/-- Worker for `splitChars`; the fuel argument only makes the recursion
structural, `splitChars` always supplies enough fuel for it never to run
out. -/
def splitCharsGo (sep : List Char) : Nat → List Char → List (List Char)
  | _, [] => [[]]
  | 0, l => [l]
  | fuel + 1, c :: cs =>
    if sep.isPrefixOf (c :: cs) then
      [] :: splitCharsGo sep fuel (List.drop (sep.length - 1) cs)
    else
      match splitCharsGo sep fuel cs with
      | [] => [[c]]
      | h :: t => (c :: h) :: t

/-- Python `s.split(sep)` for a non-empty separator: scan left to right,
cut at each non-overlapping occurrence of `sep`, keeping empty pieces. -/
def splitChars (sep l : List Char) : List (List Char) := splitCharsGo sep l.length l

/-- Python `s.split(sep)` on `String`s. -/
def pySplit (s sep : String) : List String := (splitChars sep.toList s.toList).map String.mk

/-- Python `sep.join(l)`. -/
def pyJoin (sep : String) (l : List String) : String :=
  String.mk (List.intercalate sep.toList (l.map String.toList))

/-- Worker for `replaceChars`; fuel as in `splitCharsGo`. -/
def replaceCharsGo (pat rep : List Char) : Nat → List Char → List Char
  | _, [] => []
  | 0, l => l
  | fuel + 1, c :: cs =>
    if pat.isPrefixOf (c :: cs) then
      rep ++ replaceCharsGo pat rep fuel (List.drop (pat.length - 1) cs)
    else c :: replaceCharsGo pat rep fuel cs

/-- Python `s.replace(pat, rep)` for a non-empty pattern: replace every
non-overlapping occurrence, scanning left to right. -/
def replaceS (s pat rep : String) : String :=
  String.mk (replaceCharsGo pat.toList rep.toList s.toList.length s.toList)

/-- Worker for `wordCount`: counts maximal whitespace-free runs. -/
def wordCountAux : List Char → Bool → Nat
  | [], _ => 0
  | c :: cs, inWord =>
    if isWsChar c then wordCountAux cs false
    else (if inWord then 0 else 1) + wordCountAux cs true

/-- Python `len(s.split())`: the number of whitespace-separated words. -/
def wordCount (s : String) : Nat := wordCountAux s.toList false

/-! ## Decimal formatting (Python `f"{x:.1f}"`) -/

/-- The decimal digit character for `n < 10`. -/
def digitChar (n : Nat) : Char := Char.ofNat (48 + n)

/-- Worker for `natChars`; fuel-structural base-10 digit expansion. -/
def natCharsGo : Nat → Nat → List Char
  | 0, _ => []
  | fuel + 1, n => if n < 10 then [digitChar n] else natCharsGo fuel (n / 10) ++ [digitChar (n % 10)]

/-- The decimal digits of a natural number. -/
def natChars (n : Nat) : List Char := natCharsGo (n + 1) n

/-- Round a rational to the nearest integer, ties to even — the rounding
Python's fixed-point float formatting applies. -/
def rhe (x : ℚ) : ℤ :=
  let f := ⌊x⌋
  let r := x - f
  if r < 1/2 then f else if 1/2 < r then f + 1 else if f % 2 = 0 then f else f + 1

/-- Python `f"{x:.1f}"`: fixed-point formatting with one digit after the
point, rounding half to even. -/
def fmt1 (q : ℚ) : String :=
  let n := rhe (10 * q)
  (if n < 0 then "-" else "") ++ String.mk (natChars (n.natAbs / 10)) ++ "." ++
    String.mk (natChars (n.natAbs % 10))

/-- The numeric value Python's `float(…)` recovers from the `fmt1`-formatted
string: the input rounded to one decimal place. -/
def round1 (q : ℚ) : ℚ := (rhe (10 * q) : ℚ) / 10

/-! ## Shared data model -/

/-- Candidate metadata: an arbitrary string-keyed mapping, passed through
unchanged by both rankers. -/
abbrev Metadata := List (String × String)

/-- One element of the raw vector-search result set handed to `search`:
`doc.page_content`, the distance `score`, and `doc.metadata`. -/
structure Candidate where
  pageContent : String
  score : ℚ
  metadata : Metadata
deriving DecidableEq

/-- Pair each list element with its position, starting at `i`; models the
original candidate order that Python's stable sort preserves. -/
def withIdx : Nat → List α → List (Nat × α)
  | _, [] => []
  | i, a :: as => (i, a) :: withIdx (i + 1) as

/-- Python's `l[:k]` for an arbitrary (possibly negative) integer `k`. -/
def pySliceTo (k : ℤ) (l : List α) : List α :=
  if 0 ≤ k then l.take k.toNat else l.take (l.length - (-k).toNat)

/-! ## The main ranker — `KnowledgeBase.search`, `src/knowledge_base.py` -/

namespace KnowledgeBase

/-- One output record of `KnowledgeBase.search`.  `idx` records the position
of the originating candidate in the input list; it is the tie-break order
that Python's stable sort preserves and is carried here to state the
stability guarantee. -/
structure KBResult where
  content : String
  similarity : ℚ
  metadata : Metadata
  idx : Nat
deriving DecidableEq

/-- `relevant_terms`, lines 174–179. -/
def relevantTerms : List String :=
  ["developed", "created", "designed", "built", "implemented",
   "led", "project", "worked on", "delivered", "launched",
   "ux", "user experience", "interface", "user interface",
   "research", "usability", "prototype", "wireframe"]

/-- The +15 boost keyword cluster, line 188. -/
def boostTermsA : List String := ["ux", "user experience", "interface"]

/-- The +10 boost keyword cluster, line 190. -/
def boostTermsB : List String := ["developed", "created", "designed", "implemented"]

/-- `"example" in query_lower or "work" in query_lower` — the trigger of the
keyword-extraction branch (lines 146 and 172). -/
def triggerMain (queryLower : String) : Bool :=
  containsStr "example" queryLower || containsStr "work" queryLower

/-- The sentence filter of lines 180–184: split on `". "` and keep the
sentences containing any relevant term (case-insensitively). -/
def relevantSentencesOf (content : String) : List String :=
  (pySplit content ". ").filter
    (fun sent => relevantTerms.any (fun term => containsStr term (lowerS sent)))

/-- Lines 172–191: the keyword branch.  Returns the (possibly re-ranked)
content together with the similarity boost added to the score; outside the
branch, or when no sentence matches, the content is unchanged and the boost
is 0. -/
def searchContentBranch (queryLower content : String) : String × ℚ :=
  if triggerMain queryLower then
    let rel := relevantSentencesOf content
    if rel.isEmpty then (content, 0)
    else
      let c2 := pyJoin ". " rel ++ "."
      (c2,
        (if boostTermsA.any (fun t => containsStr t (lowerS c2)) then (15 : ℚ) else 0) +
        (if boostTermsB.any (fun t => containsStr t (lowerS c2)) then (10 : ℚ) else 0))
  else (content, 0)

/-- Lines 161–191 for one candidate: `similarity = (1 - score) * 100`
(line 163, no clamping), `content = doc.page_content.strip()` (line 169),
then the keyword branch. -/
def processCandidate (queryLower : String) (p : Nat × Candidate) : KBResult :=
  let similarity := (1 - p.2.score) * 100
  let content := trimS p.2.pageContent
  let pr := searchContentBranch queryLower content
  { content := pr.1, similarity := similarity + pr.2, metadata := p.2.metadata, idx := p.1 }

/-- The relevance threshold of line 194 (`if similarity > 35`). -/
def relevanceThreshold : ℚ := 35

/-- The order of line 202, `sort(key=lambda x: float(x['similarity']),
reverse=True)`: similarity descending, with the original candidate position
as tie-break — the lexicographic order a stable descending sort realises. -/
def rankRel (a b : KBResult) : Prop :=
  b.similarity < a.similarity ∨ (a.similarity = b.similarity ∧ a.idx ≤ b.idx)

instance : DecidableRel rankRel := fun a b => by unfold rankRel; infer_instance

instance : IsTotal KBResult rankRel where
  total a b := by
    unfold rankRel
    rcases lt_trichotomy a.similarity b.similarity with h | h | h
    · exact Or.inr (Or.inl h)
    · rcases Nat.le_total a.idx b.idx with hi | hi
      · exact Or.inl (Or.inr ⟨h, hi⟩)
      · exact Or.inr (Or.inr ⟨h.symm, hi⟩)
    · exact Or.inl (Or.inl h)

instance : IsTrans KBResult rankRel where
  trans a b c hab hbc := by
    unfold rankRel at *
    rcases hab with h1 | ⟨he1, hi1⟩
    · rcases hbc with h2 | ⟨he2, _⟩
      · exact Or.inl (h2.trans h1)
      · exact Or.inl (he2 ▸ h1)
    · rcases hbc with h2 | ⟨he2, hi2⟩
      · exact Or.inl (he1 ▸ h2)
      · exact Or.inr ⟨he1.trans he2, hi1.trans hi2⟩

/-- Lines 204–211: walk the ranked results, keeping a result only when its
content was not seen before *and* it has more than 10 words; the seen-set is
extended exactly when a result is kept.  (`hash(content)` membership is
modelled as string equality.) -/
def dedupFilter : List String → List KBResult → List KBResult
  | _, [] => []
  | seen, r :: rs =>
    if r.content ∉ seen ∧ 10 < wordCount r.content then
      r :: dedupFilter (r.content :: seen) rs
    else dedupFilter seen rs

/-- Lines 159–216: the whole ranking pipeline over the candidate list the
vector store returned — format and filter (threshold 35), sort by similarity
descending (stable), deduplicate, truncate to `k`. -/
def rankCandidates (query : String) (k : ℤ) (cands : List Candidate) : List KBResult :=
  let queryLower := lowerS query
  let formatted :=
    ((withIdx 0 cands).map (processCandidate queryLower)).filter
      (fun r => relevanceThreshold < r.similarity)
  let sorted := List.insertionSort rankRel formatted
  let unique := dedupFilter [] sorted
  pySliceTo k unique

/-- `KnowledgeBase.search` (lines 136–220): the `try`/`except` wrapper turns
any upstream failure of `similarity_search_with_score` into `[]` (lines
218–220); on success the pure pipeline above runs.  The embedded pipeline
itself is total, so the upstream outcome is the only error source. -/
def search (query : String) (k : ℤ) (upstream : Except String (List Candidate)) :
    List KBResult :=
  match upstream with
  | .error _ => []
  | .ok cands => rankCandidates query k cands

end KnowledgeBase

/-! ## The variant ranker — `KnowledgeBase.search`, `src/ragstuff/knowledge_base.py` -/

namespace Ragstuff

/-- One output record of the ragstuff `search`.  `similarity` is the
formatted percentage string the code stores (`f"{similarity:.1f}%"`, line
171); `simKey` is the number `float(similarity.rstrip('%'))` recovers from
it, the key the sort of line 176 actually uses; `idx` is the original
candidate position as in `KBResult`. -/
structure RagResult where
  content : String
  similarity : String
  simKey : ℚ
  metadata : Metadata
  idx : Nat
deriving DecidableEq

/-- Lines 158–167: for a `"who is"` query, keep only the sentences
containing the extracted name; if none matches, the content is unchanged. -/
def ragContentBranch (query content : String) : String :=
  if startsWithS (lowerS query) "who is" then
    let name := trimS (replaceS (lowerS query) "who is " "")
    let rel := (pySplit content ". ").filter (fun sent => containsStr name (lowerS sent))
    if rel.isEmpty then content else pyJoin ". " rel ++ "."
  else content

/-- Lines 149–173 for one candidate: `similarity = (1 - score) * 100`
(line 151), threshold 30 (line 154), then strip, the `"who is"` branch, and
the formatted record. -/
def ragProcess (query : String) (p : Nat × Candidate) : Option RagResult :=
  let similarity := (1 - p.2.score) * 100
  if (30 : ℚ) < similarity then
    let content := ragContentBranch query (trimS p.2.pageContent)
    some { content := content, similarity := fmt1 similarity ++ "%",
           simKey := round1 similarity, metadata := p.2.metadata, idx := p.1 }
  else none

/-- The order of line 176: parsed similarity descending, stable. -/
def ragRel (a b : RagResult) : Prop :=
  b.simKey < a.simKey ∨ (a.simKey = b.simKey ∧ a.idx ≤ b.idx)

instance : DecidableRel ragRel := fun a b => by unfold ragRel; infer_instance

/-- `KnowledgeBase.search` of `src/ragstuff/knowledge_base.py` (lines
139–179): format/filter/extract per candidate, sort by parsed similarity
descending (stable), return the first `k`.  No deduplication and no word
count filter are performed in this variant. -/
def search (query : String) (k : ℤ) (cands : List Candidate) : List RagResult :=
  let formatted := (withIdx 0 cands).filterMap (ragProcess query)
  pySliceTo k (List.insertionSort ragRel formatted)

end Ragstuff

/-! ## Helper lemmas -/

theorem pySliceTo_sublist (k : ℤ) (l : List α) : (pySliceTo k l).Sublist l := by
  unfold pySliceTo
  split <;> exact List.take_sublist _ _

theorem withIdx_mem_ge : ∀ (l : List α) (i : Nat), ∀ p ∈ withIdx i l, i ≤ p.1 := by
  intro l
  induction l with
  | nil => intro i p hp; simp [withIdx] at hp
  | cons a as ih =>
    intro i p hp
    simp only [withIdx, List.mem_cons] at hp
    rcases hp with rfl | hp
    · exact le_refl i
    · exact Nat.le_of_succ_le (ih (i + 1) p hp)

theorem withIdx_pairwise (l : List α) (i : Nat) :
    (withIdx i l).Pairwise (fun p q => p.1 < q.1) := by
  induction l generalizing i with
  | nil => exact List.Pairwise.nil
  | cons a as ih =>
    refine List.Pairwise.cons ?_ (ih (i + 1))
    intro q hq
    exact Nat.lt_of_succ_le (withIdx_mem_ge as (i + 1) q hq)

theorem dedupFilter_sublist :
    ∀ (l : List KnowledgeBase.KBResult) (seen : List String),
      (KnowledgeBase.dedupFilter seen l).Sublist l := by
  intro l
  induction l with
  | nil => intro seen; simp [KnowledgeBase.dedupFilter]
  | cons r rs ih =>
    intro seen
    unfold KnowledgeBase.dedupFilter
    split
    · exact List.Sublist.cons₂ r (ih _)
    · exact List.Sublist.cons r (ih _)

theorem dedupFilter_content_notin_seen :
    ∀ (l : List KnowledgeBase.KBResult) (seen : List String),
      ∀ r ∈ KnowledgeBase.dedupFilter seen l, r.content ∉ seen := by
  intro l
  induction l with
  | nil => intro seen r hr; simp [KnowledgeBase.dedupFilter] at hr
  | cons a as ih =>
    intro seen r hr
    unfold KnowledgeBase.dedupFilter at hr
    split at hr
    · rename_i hc
      rcases List.mem_cons.mp hr with rfl | hr
      · exact hc.1
      · intro hmem
        exact ih (a.content :: seen) r hr (List.mem_cons_of_mem _ hmem)
    · exact ih seen r hr

theorem dedupFilter_content_nodup :
    ∀ (l : List KnowledgeBase.KBResult) (seen : List String),
      ((KnowledgeBase.dedupFilter seen l).map KnowledgeBase.KBResult.content).Nodup := by
  intro l
  induction l with
  | nil => intro seen; simp [KnowledgeBase.dedupFilter]
  | cons a as ih =>
    intro seen
    unfold KnowledgeBase.dedupFilter
    split
    · refine List.Nodup.cons ?_ (ih _)
      intro hmem
      rcases List.mem_map.mp hmem with ⟨r, hr, hEq⟩
      exact dedupFilter_content_notin_seen as (a.content :: seen) r hr
        (hEq ▸ List.mem_cons_self _ _)
    · exact ih seen

theorem pairwise_and {R S : α → α → Prop} :
    ∀ {l : List α}, l.Pairwise R → l.Pairwise S → l.Pairwise (fun a b => R a b ∧ S a b) := by
  intro l hR hS
  induction l with
  | nil => exact List.Pairwise.nil
  | cons a as ih =>
    rcases List.pairwise_cons.mp hR with ⟨hRa, hRas⟩
    rcases List.pairwise_cons.mp hS with ⟨hSa, hSas⟩
    exact List.Pairwise.cons (fun b hb => ⟨hRa b hb, hSa b hb⟩) (ih hRas hSas)

theorem formatted_pairwise_idx (queryLower : String) (cands : List Candidate) :
    (((withIdx 0 cands).map (KnowledgeBase.processCandidate queryLower)).filter
        (fun r => KnowledgeBase.relevanceThreshold < r.similarity)).Pairwise
      (fun a b => a.idx < b.idx) := by
  refine List.Pairwise.filter _ ?_
  refine List.Pairwise.map _ ?_ (withIdx_pairwise cands 0)
  intro a b h
  simpa [KnowledgeBase.processCandidate] using h

theorem rankCandidates_singleton_eval (q : String) (k : ℤ) (c : Candidate) (s : ℚ)
    (hb : KnowledgeBase.searchContentBranch (lowerS q) (trimS c.pageContent) =
      (trimS c.pageContent, 0))
    (hs : (1 - c.score) * 100 = s)
    (h35 : KnowledgeBase.relevanceThreshold < s)
    (hw : 10 < wordCount (trimS c.pageContent))
    (hk : 1 ≤ k) :
    KnowledgeBase.rankCandidates q k [c] = [⟨trimS c.pageContent, s, c.metadata, 0⟩] := by
  unfold KnowledgeBase.rankCandidates
  have hp : KnowledgeBase.processCandidate (lowerS q) (0, c) =
      ⟨trimS c.pageContent, s, c.metadata, 0⟩ := by
    simp [KnowledgeBase.processCandidate, hb, hs]
  simp only [withIdx, List.map_cons, List.map_nil, hp]
  rw [List.filter_cons_of_pos (by simpa using h35)]
  simp only [List.filter_nil, List.insertionSort, List.orderedInsert]
  rw [KnowledgeBase.dedupFilter, if_pos (by simpa using hw), KnowledgeBase.dedupFilter]
  unfold pySliceTo
  rw [if_pos (le_trans (by decide) hk)]
  refine List.take_of_length_le ?_
  have h1 : 1 ≤ k.toNat := by omega
  simpa using h1

theorem append_dot_ne (s : String) : s ++ "." ≠ "" := by
  obtain ⟨l⟩ := s
  intro h
  have h2 : l ++ ['.'] = ([] : List Char) := congrArg String.data h
  simp at h2

/-- Claim C8: When the keyword-extraction branch is triggered but no sentence
matches (main variant: no sentence contains a relevant term, lines 180–186;
ragstuff variant: no sentence contains the extracted name, lines 161–167),
the trimmed content is kept unmodified; and neither branch ever turns a
non-empty content into the empty string. -/
theorem no_match_keeps_content :
    (∀ (queryLower content : String),
        KnowledgeBase.triggerMain queryLower = true →
        KnowledgeBase.relevantSentencesOf content = [] →
        (KnowledgeBase.searchContentBranch queryLower content).1 = content)
    ∧ (∀ (queryLower content : String), content ≠ "" →
        (KnowledgeBase.searchContentBranch queryLower content).1 ≠ "")
    ∧ (∀ (query content : String),
        startsWithS (lowerS query) "who is" = true →
        (pySplit content ". ").filter
          (fun sent => containsStr (trimS (replaceS (lowerS query) "who is " ""))
            (lowerS sent)) = [] →
        Ragstuff.ragContentBranch query content = content)
    ∧ (∀ (query content : String), content ≠ "" →
        Ragstuff.ragContentBranch query content ≠ "") := by
  refine ⟨?_, ?_, ?_, ?_⟩
  · intro qL content ht hrel
    simp [KnowledgeBase.searchContentBranch, ht, hrel]
  · intro qL content hne
    unfold KnowledgeBase.searchContentBranch
    split
    · dsimp only
      split
      · exact hne
      · exact append_dot_ne _
    · exact hne
  · intro query content hs hrel
    simp [Ragstuff.ragContentBranch, hs, hrel]
  · intro query content hne
    unfold Ragstuff.ragContentBranch
    split
    · dsimp only
      split
      · exact hne
      · exact append_dot_ne _
    · exact hne

/-- Witness for `no_match_keeps_content` at concrete inputs. -/
theorem no_match_keeps_content_witness :
    KnowledgeBase.triggerMain "work stuff" = true ∧
    KnowledgeBase.relevantSentencesOf "Hello there my good friend" = [] ∧
    (KnowledgeBase.searchContentBranch "work stuff" "Hello there my good friend").1 =
      "Hello there my good friend" ∧
    (KnowledgeBase.searchContentBranch "work stuff" "Hello there my good friend").1 ≠ "" ∧
    Ragstuff.ragContentBranch "who is zorp" "Jane is here" = "Jane is here" := by
  refine ⟨by decide, by decide, ?_, ?_, ?_⟩
  · exact no_match_keeps_content.1 "work stuff" "Hello there my good friend"
      (by decide) (by decide)
  · exact no_match_keeps_content.2.1 "work stuff" "Hello there my good friend" (by decide)
  · exact no_match_keeps_content.2.2.1 "who is zorp" "Jane is here" (by decide) (by decide)

/-- Claim C9: The boost of lines 185–191: the candidate's final similarity is
always the base score plus the branch boost, and inside the keyword branch
the boost is `(+15 if the re-ranked content has a domain/role term) +
(+10 if it has an action verb)` — added independently and additively, `+25`
when both clusters match. -/
theorem boosts_additive :
    (∀ (queryLower : String) (p : Nat × Candidate),
        (KnowledgeBase.processCandidate queryLower p).similarity =
          (1 - p.2.score) * 100 +
            (KnowledgeBase.searchContentBranch queryLower (trimS p.2.pageContent)).2)
    ∧ (∀ (queryLower content : String),
        KnowledgeBase.triggerMain queryLower = true →
        KnowledgeBase.relevantSentencesOf content ≠ [] →
        ((KnowledgeBase.searchContentBranch queryLower content).2 =
            (if KnowledgeBase.boostTermsA.any (fun t => containsStr t
                (lowerS (KnowledgeBase.searchContentBranch queryLower content).1)) = true
              then (15 : ℚ) else 0) +
            (if KnowledgeBase.boostTermsB.any (fun t => containsStr t
                (lowerS (KnowledgeBase.searchContentBranch queryLower content).1)) = true
              then (10 : ℚ) else 0))
          ∧ (KnowledgeBase.boostTermsA.any (fun t => containsStr t
                (lowerS (KnowledgeBase.searchContentBranch queryLower content).1)) = true →
             KnowledgeBase.boostTermsB.any (fun t => containsStr t
                (lowerS (KnowledgeBase.searchContentBranch queryLower content).1)) = true →
             (KnowledgeBase.searchContentBranch queryLower content).2 = 25)) := by
  refine ⟨fun qL p => rfl, ?_⟩
  intro qL content ht hrel
  have hne : (KnowledgeBase.relevantSentencesOf content).isEmpty = false := by
    simpa [List.isEmpty_iff] using hrel
  have h1 : (KnowledgeBase.searchContentBranch qL content).1 =
      pyJoin ". " (KnowledgeBase.relevantSentencesOf content) ++ "." := by
    simp [KnowledgeBase.searchContentBranch, ht, hne]
  have h2 : (KnowledgeBase.searchContentBranch qL content).2 =
      (if KnowledgeBase.boostTermsA.any (fun t => containsStr t
          (lowerS (pyJoin ". " (KnowledgeBase.relevantSentencesOf content) ++ ".")))
        then (15 : ℚ) else 0) +
      (if KnowledgeBase.boostTermsB.any (fun t => containsStr t
          (lowerS (pyJoin ". " (KnowledgeBase.relevantSentencesOf content) ++ ".")))
        then (10 : ℚ) else 0) := by
    simp [KnowledgeBase.searchContentBranch, ht, hne]
  rw [h1, h2]
  constructor
  · rfl
  · intro hA hB
    rw [hA, hB]
    norm_num

/-- Witness for `boosts_additive` at a concrete input: both keyword clusters
match, so the boost is exactly 25. -/
theorem boosts_additive_witness :
    KnowledgeBase.triggerMain "work" = true ∧
    KnowledgeBase.relevantSentencesOf "I developed the user interface for this project" ≠ [] ∧
    (KnowledgeBase.searchContentBranch "work"
      "I developed the user interface for this project").2 = 25 :=
  ⟨by decide, by decide,
    (boosts_additive.2 "work" "I developed the user interface for this project"
        (by decide) (by decide)).2 (by decide) (by decide)⟩

/-- Claim C4: Similarity is `(1 - distance) * 100` with no clamping (line
163): outside the keyword branch the computed similarity is exactly that
formula; distance 0 gives exactly 100 and distance 1 exactly 0; a distance
below 0 gives a similarity above 100 that reaches the output unclamped, and
a distance above 1 gives a negative similarity, likewise unclamped. -/
theorem similarity_formula_unclamped :
    (∀ (queryLower : String) (p : Nat × Candidate),
        KnowledgeBase.triggerMain queryLower = false →
        (KnowledgeBase.processCandidate queryLower p).similarity = (1 - p.2.score) * 100)
    ∧ (∀ (queryLower : String) (p : Nat × Candidate),
        KnowledgeBase.triggerMain queryLower = false → p.2.score = 0 →
        (KnowledgeBase.processCandidate queryLower p).similarity = 100)
    ∧ (∀ (queryLower : String) (p : Nat × Candidate),
        KnowledgeBase.triggerMain queryLower = false → p.2.score = 1 →
        (KnowledgeBase.processCandidate queryLower p).similarity = 0)
    ∧ (∀ (queryLower : String) (p : Nat × Candidate),
        KnowledgeBase.triggerMain queryLower = false → 1 < p.2.score →
        (KnowledgeBase.processCandidate queryLower p).similarity < 0)
    ∧ (∀ d : ℚ, d < 0 →
        (KnowledgeBase.search "hi" 1
            (Except.ok [⟨"alpha beta gamma delta epsilon zeta eta theta iota kappa mu nu",
              d, []⟩])).map KnowledgeBase.KBResult.similarity = [(1 - d) * 100]
          ∧ 100 < (1 - d) * 100) := by
  have hform : ∀ (queryLower : String) (p : Nat × Candidate),
      KnowledgeBase.triggerMain queryLower = false →
      (KnowledgeBase.processCandidate queryLower p).similarity = (1 - p.2.score) * 100 := by
    intro qL p ht
    simp [KnowledgeBase.processCandidate, KnowledgeBase.searchContentBranch, ht]
  refine ⟨hform, ?_, ?_, ?_, ?_⟩
  · intro qL p ht h0
    rw [hform qL p ht, h0]
    norm_num
  · intro qL p ht h1
    rw [hform qL p ht, h1]
    norm_num
  · intro qL p ht h1
    rw [hform qL p ht]
    nlinarith
  · intro d hd
    have hout : KnowledgeBase.search "hi" 1
        (Except.ok [⟨"alpha beta gamma delta epsilon zeta eta theta iota kappa mu nu",
          d, []⟩]) =
        [⟨"alpha beta gamma delta epsilon zeta eta theta iota kappa mu nu",
          (1 - d) * 100, [], 0⟩] := by
      show KnowledgeBase.rankCandidates "hi" 1 _ = _
      have := rankCandidates_singleton_eval "hi" 1
        ⟨"alpha beta gamma delta epsilon zeta eta theta iota kappa mu nu", d, []⟩
        ((1 - d) * 100)
        (by show KnowledgeBase.searchContentBranch (lowerS "hi")
              (trimS "alpha beta gamma delta epsilon zeta eta theta iota kappa mu nu") =
            (trimS "alpha beta gamma delta epsilon zeta eta theta iota kappa mu nu", 0)
            decide)
        rfl
        (by unfold KnowledgeBase.relevanceThreshold; nlinarith)
        (by show 10 < wordCount
              (trimS "alpha beta gamma delta epsilon zeta eta theta iota kappa mu nu")
            decide)
        (by decide)
      simpa using this
    rw [hout]
    refine ⟨by simp, by nlinarith⟩

/-- Witness for `similarity_formula_unclamped` at concrete inputs. -/
theorem similarity_formula_unclamped_witness :
    KnowledgeBase.triggerMain "hi" = false ∧
      (KnowledgeBase.processCandidate "hi" (0, ⟨"x", 0, []⟩)).similarity = 100 ∧
      (-1 : ℚ) < 0 ∧
      (KnowledgeBase.search "hi" 1
          (Except.ok [⟨"alpha beta gamma delta epsilon zeta eta theta iota kappa mu nu",
            -1, []⟩])).map KnowledgeBase.KBResult.similarity = [(1 - (-1 : ℚ)) * 100] :=
  ⟨by decide,
   similarity_formula_unclamped.2.1 "hi" (0, ⟨"x", 0, []⟩) (by decide) rfl,
   by norm_num,
   (similarity_formula_unclamped.2.2.2.2 (-1) (by norm_num)).1⟩

/-- Claim C10: `KnowledgeBase.search` in `src/knowledge_base.py` never
propagates an exception: the whole ranking pipeline sits inside
`try`/`except`, the embedded pipeline (`rankCandidates`) is a total
function, and when the upstream vector-store call raises, the `except`
branch returns the empty list — the only observable failure mode. -/
theorem search_error_returns_empty (query : String) (k : ℤ) (e : String) :
    KnowledgeBase.search query k (Except.error e) = [] := rfl

/-- Claim C1 (amended): In `src/knowledge_base.py`, the returned results are
unique by post-processed content: the dedup loop of lines 204–211 keeps
only the first occurrence of each content string, for every query, `k`, and
upstream outcome. -/
theorem search_contents_nodup (query : String) (k : ℤ)
    (upstream : Except String (List Candidate)) :
    ((KnowledgeBase.search query k upstream).map KnowledgeBase.KBResult.content).Nodup := by
  match upstream with
  | .error e => simp [KnowledgeBase.search]
  | .ok cands =>
    show ((KnowledgeBase.rankCandidates query k cands).map
        KnowledgeBase.KBResult.content).Nodup
    unfold KnowledgeBase.rankCandidates
    exact (dedupFilter_content_nodup _ []).sublist
      (List.Sublist.map _ (pySliceTo_sublist k _))

/-- Claim C2 (amended): `KnowledgeBase.search` performs no validation of `k`:
a non-positive `k` raises nothing; the operation still returns the Python
slice `unique_results[:k]` — in particular `k = 0` always yields `[]`. -/
theorem search_k_zero_returns_empty (query : String)
    (upstream : Except String (List Candidate)) :
    KnowledgeBase.search query 0 upstream = [] := by
  match upstream with
  | .error e => rfl
  | .ok cands =>
    show KnowledgeBase.rankCandidates query 0 cands = []
    unfold KnowledgeBase.rankCandidates pySliceTo
    simp

/-- Claim C6: For every query, every positive `k`, and every upstream outcome,
`KnowledgeBase.search` returns at most `k` results (`unique_results[:k]`,
line 216). -/
theorem search_length_le_k (query : String) (k : ℤ)
    (upstream : Except String (List Candidate)) (hk : 0 < k) :
    ((KnowledgeBase.search query k upstream).length : ℤ) ≤ k := by
  match upstream with
  | .error e =>
    simp only [KnowledgeBase.search, List.length_nil, Nat.cast_zero]
    exact le_of_lt hk
  | .ok cands =>
    show ((KnowledgeBase.rankCandidates query k cands).length : ℤ) ≤ k
    unfold KnowledgeBase.rankCandidates pySliceTo
    rw [if_pos (le_of_lt hk)]
    have h := List.length_take_le k.toNat
      (KnowledgeBase.dedupFilter [] (List.insertionSort KnowledgeBase.rankRel
        (((withIdx 0 cands).map (KnowledgeBase.processCandidate (lowerS query))).filter
          (fun r => KnowledgeBase.relevanceThreshold < r.similarity))))
    omega

/-- Witness for `search_length_le_k` at concrete input. -/
theorem search_length_le_k_witness :
    (0 : ℤ) < 3 ∧
      ((KnowledgeBase.search "who" 3
          (Except.ok [⟨"some text", 1/5, []⟩])).length : ℤ) ≤ 3 :=
  ⟨by decide, search_length_le_k "who" 3 (Except.ok [⟨"some text", 1/5, []⟩]) (by decide)⟩

/-- Claim C7: Every returned result of `KnowledgeBase.search` has final
similarity (after any boosting) strictly above `relevanceThreshold = 35`,
the fixed constant of line 194; candidates at or below it are excluded, for
every query, `k`, and upstream outcome alike. -/
theorem search_results_above_threshold (query : String) (k : ℤ)
    (upstream : Except String (List Candidate)) (res : KnowledgeBase.KBResult)
    (hres : res ∈ KnowledgeBase.search query k upstream) :
    KnowledgeBase.relevanceThreshold < res.similarity := by
  match upstream with
  | .error e => simp [KnowledgeBase.search] at hres
  | .ok cands =>
    have hres' : res ∈ KnowledgeBase.rankCandidates query k cands := hres
    unfold KnowledgeBase.rankCandidates at hres'
    have h1 := (pySliceTo_sublist k _).subset hres'
    have h2 := (dedupFilter_sublist _ []).subset h1
    have h3 := (List.perm_insertionSort KnowledgeBase.rankRel _).subset h2
    exact of_decide_eq_true (List.mem_filter.mp h3).2

/-- Witness for `search_results_above_threshold` at a concrete input. -/
theorem search_results_above_threshold_witness :
    (⟨"alpha beta gamma delta epsilon zeta eta theta iota kappa mu nu", 80, [], 0⟩ :
        KnowledgeBase.KBResult) ∈
      KnowledgeBase.search "who" 3
        (Except.ok [⟨"alpha beta gamma delta epsilon zeta eta theta iota kappa mu nu",
          1/5, []⟩]) ∧
    KnowledgeBase.relevanceThreshold <
      (⟨"alpha beta gamma delta epsilon zeta eta theta iota kappa mu nu", 80, [], 0⟩ :
        KnowledgeBase.KBResult).similarity := by
  have htrim : trimS "alpha beta gamma delta epsilon zeta eta theta iota kappa mu nu" =
      "alpha beta gamma delta epsilon zeta eta theta iota kappa mu nu" := by decide
  have heval : KnowledgeBase.search "who" 3
      (Except.ok [⟨"alpha beta gamma delta epsilon zeta eta theta iota kappa mu nu",
        1/5, []⟩]) =
      [⟨"alpha beta gamma delta epsilon zeta eta theta iota kappa mu nu", 80, [], 0⟩] := by
    show KnowledgeBase.rankCandidates "who" 3 _ = _
    have := rankCandidates_singleton_eval "who" 3
      ⟨"alpha beta gamma delta epsilon zeta eta theta iota kappa mu nu", 1/5, []⟩ 80
      (by decide) (by norm_num) (by decide) (by decide) (by decide)
    rw [this, htrim]
  have hmem : (⟨"alpha beta gamma delta epsilon zeta eta theta iota kappa mu nu",
      80, [], 0⟩ : KnowledgeBase.KBResult) ∈
      KnowledgeBase.search "who" 3
        (Except.ok [⟨"alpha beta gamma delta epsilon zeta eta theta iota kappa mu nu",
          1/5, []⟩]) := by
    rw [heval]
    exact List.mem_singleton_self _
  exact ⟨hmem, search_results_above_threshold "who" 3 _ _ hmem⟩

/-- Claim C5: The output of `KnowledgeBase.search` is sorted by similarity in
descending order, and entries with equal similarity appear in the order of
the originating candidates (the stable sort of line 202); this holds for
every query, `k`, and upstream outcome. -/
theorem search_sorted_desc_stable (query : String) (k : ℤ)
    (upstream : Except String (List Candidate)) :
    (KnowledgeBase.search query k upstream).Pairwise
      (fun a b => b.similarity < a.similarity ∨
        (a.similarity = b.similarity ∧ a.idx < b.idx)) := by
  match upstream with
  | .error e => simp [KnowledgeBase.search]
  | .ok cands =>
    show (KnowledgeBase.rankCandidates query k cands).Pairwise _
    unfold KnowledgeBase.rankCandidates
    set formatted :=
      ((withIdx 0 cands).map (KnowledgeBase.processCandidate (lowerS query))).filter
        (fun r => KnowledgeBase.relevanceThreshold < r.similarity) with hf
    have hsorted : (List.insertionSort KnowledgeBase.rankRel formatted).Pairwise
        KnowledgeBase.rankRel :=
      List.sorted_insertionSort KnowledgeBase.rankRel formatted
    have hidx : formatted.Pairwise (fun a b => a.idx < b.idx) :=
      formatted_pairwise_idx (lowerS query) cands
    have hnd : (formatted.map KnowledgeBase.KBResult.idx).Nodup :=
      List.pairwise_map.mpr (hidx.imp (fun h => Nat.ne_of_lt h))
    have hperm := List.perm_insertionSort KnowledgeBase.rankRel formatted
    have hnd' : ((List.insertionSort KnowledgeBase.rankRel formatted).map
        KnowledgeBase.KBResult.idx).Nodup :=
      ((hperm.map KnowledgeBase.KBResult.idx).nodup_iff).mpr hnd
    have hne : (List.insertionSort KnowledgeBase.rankRel formatted).Pairwise
        (fun a b => a.idx ≠ b.idx) := List.pairwise_map.mp hnd'
    have hstrict : (List.insertionSort KnowledgeBase.rankRel formatted).Pairwise
        (fun a b => b.similarity < a.similarity ∨
          (a.similarity = b.similarity ∧ a.idx < b.idx)) := by
      refine (pairwise_and hsorted hne).imp ?_
      rintro a b ⟨hr | ⟨heq, hle⟩, hneq⟩
      · exact Or.inl hr
      · exact Or.inr ⟨heq, lt_of_le_of_ne hle hneq⟩
    exact List.Pairwise.sublist
      ((pySliceTo_sublist k _).trans (dedupFilter_sublist _ [])) hstrict

theorem processCandidate_noTrigger (qL : String) (i : Nat) (c : Candidate) (s : ℚ)
    (ht : KnowledgeBase.triggerMain qL = false) (hs : (1 - c.score) * 100 = s) :
    KnowledgeBase.processCandidate qL (i, c) = ⟨trimS c.pageContent, s, c.metadata, i⟩ := by
  simp [KnowledgeBase.processCandidate, KnowledgeBase.searchContentBranch, ht, hs]

theorem ragProcess_eval (q : String) (i : Nat) (c : Candidate) (s : ℚ)
    (hs : (1 - c.score) * 100 = s) (h30 : (30 : ℚ) < s) :
    Ragstuff.ragProcess q (i, c) =
      some ⟨Ragstuff.ragContentBranch q (trimS c.pageContent), fmt1 s ++ "%",
        round1 s, c.metadata, i⟩ := by
  simp [Ragstuff.ragProcess, hs, h30]

/-- Claim C1 (counterexample): The ragstuff variant performs no deduplication:
two candidates with identical content both reach the output, so the claim
"no two entries of the returned result list have identical post-processed
content" is false for that `search`. -/
theorem rag_search_duplicate_contents :
    (Ragstuff.search "hello" 2
        [⟨"Jane is an engineer with experience", 1/10, []⟩,
         ⟨"Jane is an engineer with experience", 1/10, []⟩]).map
        Ragstuff.RagResult.content =
      ["Jane is an engineer with experience", "Jane is an engineer with experience"] ∧
    ¬ ((Ragstuff.search "hello" 2
        [⟨"Jane is an engineer with experience", 1/10, []⟩,
         ⟨"Jane is an engineer with experience", 1/10, []⟩]).map
        Ragstuff.RagResult.content).Nodup := by
  have hs : ((1 : ℚ) - 1/10) * 100 = 90 := by norm_num
  have hcb : Ragstuff.ragContentBranch "hello"
      (trimS "Jane is an engineer with experience") =
      "Jane is an engineer with experience" := by decide
  have hp0 := ragProcess_eval "hello" 0
    ⟨"Jane is an engineer with experience", 1/10, []⟩ 90 hs (by norm_num)
  have hp1 := ragProcess_eval "hello" 1
    ⟨"Jane is an engineer with experience", 1/10, []⟩ 90 hs (by norm_num)
  rw [hcb] at hp0 hp1
  have heval : Ragstuff.search "hello" 2
      [⟨"Jane is an engineer with experience", 1/10, []⟩,
       ⟨"Jane is an engineer with experience", 1/10, []⟩] =
      [⟨"Jane is an engineer with experience", fmt1 90 ++ "%", round1 90, [], 0⟩,
       ⟨"Jane is an engineer with experience", fmt1 90 ++ "%", round1 90, [], 1⟩] := by
    unfold Ragstuff.search
    simp only [withIdx, List.filterMap_cons, List.filterMap_nil, hp0, hp1]
    simp [List.insertionSort, List.orderedInsert, Ragstuff.ragRel, pySliceTo]
  rw [heval]
  exact ⟨by simp, by decide⟩

/-- Claim C2 (counterexample): Calling `KnowledgeBase.search` with `k ≤ 0`
does not raise: no validation of `k` exists, and the slice
`unique_results[:k]` is returned — the empty list for `k = 0` and even a
*non-empty* list for `k = -1` with two qualifying candidates.  This refutes
"calling it with k <= 0 fails fast by raising a clear error". -/
theorem search_nonpositive_k_returns_results :
    KnowledgeBase.search "hey" 0
        (Except.ok [⟨"alpha beta gamma delta epsilon zeta eta theta iota kappa mu nu", 1/10, []⟩,
          ⟨"one two three four five six seven eight nine ten eleven twelve", 1/5, []⟩]) = [] ∧
    KnowledgeBase.search "hey" (-1)
        (Except.ok [⟨"alpha beta gamma delta epsilon zeta eta theta iota kappa mu nu", 1/10, []⟩,
          ⟨"one two three four five six seven eight nine ten eleven twelve", 1/5, []⟩]) =
      [⟨"alpha beta gamma delta epsilon zeta eta theta iota kappa mu nu", 90, [], 0⟩] := by
  have hq : lowerS "hey" = "hey" := by decide
  have hp1 := processCandidate_noTrigger "hey" 0
    ⟨"alpha beta gamma delta epsilon zeta eta theta iota kappa mu nu", 1/10, []⟩ 90
    (by decide) (by norm_num)
  have hp2 := processCandidate_noTrigger "hey" 1
    ⟨"one two three four five six seven eight nine ten eleven twelve", 1/5, []⟩ 80
    (by decide) (by norm_num)
  have htr1 : trimS "alpha beta gamma delta epsilon zeta eta theta iota kappa mu nu" =
      "alpha beta gamma delta epsilon zeta eta theta iota kappa mu nu" := by decide
  have htr2 : trimS "one two three four five six seven eight nine ten eleven twelve" =
      "one two three four five six seven eight nine ten eleven twelve" := by decide
  rw [htr1] at hp1
  rw [htr2] at hp2
  constructor
  · show KnowledgeBase.rankCandidates "hey" 0 _ = _
    unfold KnowledgeBase.rankCandidates pySliceTo
    simp
  · show KnowledgeBase.rankCandidates "hey" (-1) _ = _
    unfold KnowledgeBase.rankCandidates
    rw [hq]
    simp only [withIdx, List.map_cons, List.map_nil, hp1, hp2]
    rw [List.filter_cons_of_pos (by simp [KnowledgeBase.relevanceThreshold]; norm_num),
      List.filter_cons_of_pos (by simp [KnowledgeBase.relevanceThreshold]; norm_num),
      List.filter_nil]
    simp only [List.insertionSort, List.orderedInsert, KnowledgeBase.rankRel]
    rw [if_pos (Or.inl (by norm_num : (80 : ℚ) < 90))]
    rw [show KnowledgeBase.dedupFilter []
        [⟨"alpha beta gamma delta epsilon zeta eta theta iota kappa mu nu", 90, [], 0⟩,
         ⟨"one two three four five six seven eight nine ten eleven twelve", 80, [], 1⟩] =
        [⟨"alpha beta gamma delta epsilon zeta eta theta iota kappa mu nu", 90, [], 0⟩,
         ⟨"one two three four five six seven eight nine ten eleven twelve", 80, [], 1⟩]
      from by
        rw [KnowledgeBase.dedupFilter, if_pos (by refine ⟨by simp, by decide⟩)]
        rw [KnowledgeBase.dedupFilter, if_pos (by refine ⟨by decide, by decide⟩)]
        rw [KnowledgeBase.dedupFilter]]
    unfold pySliceTo
    rw [if_neg (by decide)]
    simp

/-- Claim C3: Query `"who is jane doe"`, one candidate with content
`"Jane Doe is an engineer. She likes hiking. Jane Doe led the project."`
and distance `0.2`: similarity is `(1 - 0.2) * 100 = 80.0` (stored as
`"80.0%"`, parsed back as `80`), the candidate passes the threshold, and
the sole result's content is exactly the two sentence units containing
`"jane doe"` (case-insensitively) rejoined with `". "` plus a trailing
period — the second unit keeps its own final period, so the re-ranked
content ends in `".."`. -/
theorem jane_doe_scenario :
    Ragstuff.search "who is jane doe" 3
        [⟨"Jane Doe is an engineer. She likes hiking. Jane Doe led the project.",
          1/5, []⟩] =
      [⟨"Jane Doe is an engineer. Jane Doe led the project..", "80.0%", 80, [], 0⟩] ∧
    (pySplit "Jane Doe is an engineer. She likes hiking. Jane Doe led the project."
        ". ").filter (fun sent => containsStr "jane doe" (lowerS sent)) =
      ["Jane Doe is an engineer", "Jane Doe led the project."] ∧
    "Jane Doe is an engineer. Jane Doe led the project.." =
      pyJoin ". " ["Jane Doe is an engineer", "Jane Doe led the project."] ++ "." ∧
    ((1 : ℚ) - 1/5) * 100 = 80 := by
  have hs : ((1 : ℚ) - 1/5) * 100 = 80 := by norm_num
  have hcb : Ragstuff.ragContentBranch "who is jane doe"
      (trimS "Jane Doe is an engineer. She likes hiking. Jane Doe led the project.") =
      "Jane Doe is an engineer. Jane Doe led the project.." := by decide
  have hfmt : fmt1 80 ++ "%" = "80.0%" := by
    norm_num [fmt1, rhe, natChars, natCharsGo, digitChar]
    decide
  have hround : round1 80 = 80 := by norm_num [round1, rhe]
  have hp := ragProcess_eval "who is jane doe" 0
    ⟨"Jane Doe is an engineer. She likes hiking. Jane Doe led the project.", 1/5, []⟩
    80 hs (by norm_num)
  rw [hcb, hfmt, hround] at hp
  refine ⟨?_, by decide, by decide, hs⟩
  unfold Ragstuff.search
  simp only [withIdx, List.filterMap_cons, List.filterMap_nil, hp]
  simp [List.insertionSort, List.orderedInsert, pySliceTo]
